import Mathlib

/-!
Shallow embedding of the inventory layer of the rgb-std repository
(`src/persistence/inventory.rs`, `src/containers/util.rs`,
`src/interface/rgb25.rs`) together with theorems settling the
specification claims about it.

Machine integers are modelled as `Nat`; identifier types (contract ids,
operation ids, bundle ids, witness ids, seals) are `Nat` since only
their equality is used by the embedded code.  Fallible code returns
`Except`; Rust panics (`panic!`, `todo!`) are modelled as a dedicated
outcome constructor so they are distinguishable from returned error
values.  Mutations through `&mut self` are modelled by explicit state
passing: a Rust method that can both mutate and fail is embedded as a
function returning the final state together with an optional error,
because in Rust the mutations performed before an early `return Err`
persist.
-/

namespace RgbStd

/-! ## Identifier types (`rgb` crate ids used by the inventory layer) -/

abbrev ContractId := Nat
abbrev OpId := Nat
abbrev BundleId := Nat
abbrev XWitnessId := Nat
abbrev AssignmentType := Nat
abbrev XOutputSeal := Nat
abbrev Vout := Nat
abbrev SecretSeal := Nat
abbrev IfaceName := Nat
abbrev FieldName := Nat
abbrev TypeName := Nat
abbrev VelocityHint := Nat
abbrev Identity := Nat

/-- The `Opout`: pointer to one output of one operation
(operation id, assignment type, output index). -/
structure Opout where
  op : OpId
  ty : AssignmentType
  no : Nat
deriving DecidableEq, Repr

/-! ## `interface/rgb25.rs`: the `Rgb25` interface wrapper (claim C10) -/

/-- Interface id: 32-byte array, modelled as the list of its bytes. -/
abbrev IfaceId := List Nat

/-- The `Rgb25::IFACE_ID` constant from `IfaceWrapper for Rgb25`. -/
def Rgb25.IFACE_ID : IfaceId :=
  [0xbb, 0xe4, 0xc0, 0xb9, 0xac, 0xe7, 0x8b, 0x14, 0x92, 0xfc, 0xc5, 0xfa, 0x39, 0x4d, 0x1a,
   0x19, 0x8e, 0x15, 0x42, 0x60, 0xb5, 0x14, 0xb1, 0x33, 0x0c, 0xe9, 0x47, 0x2c, 0x60, 0xdb,
   0x7b, 0x95]

/-- The part of `Iface` the `From<ContractIface>` conversion reads. -/
structure IfaceDecl where
  iface_id : IfaceId
deriving DecidableEq, Repr

/-- The part of `ContractIface` the `From<ContractIface>` conversion reads:
its `iface` field. -/
structure ContractIface where
  iface : IfaceDecl
deriving DecidableEq, Repr

/-- The `Rgb25` newtype wrapper around `ContractIface`. -/
structure Rgb25 where
  inner : ContractIface
deriving DecidableEq, Repr

/-- The `impl From<ContractIface> for Rgb25 { fn from }`: panics (modelled as
`none`) when the provided interface's id differs from `Rgb25::IFACE_ID`,
otherwise wraps the interface. -/
def Rgb25.fromContractIface (iface : ContractIface) : Option Rgb25 :=
  if iface.iface.iface_id ≠ Rgb25.IFACE_ID then
    none  -- panic!("the provided interface is not RGB25 interface")
  else
    some ⟨iface⟩

/-! ## `containers/util.rs`: `SigBlob` and `ContentSigs` (claim C8) -/

/-- The `SigBlob`: wrapper around `NonEmptyBlob<4096>` — a byte blob that is
non-empty and holds at most 4096 bytes. -/
structure SigBlob where
  bytes : List Nat
deriving DecidableEq, Repr

/-- Modelled from the spec: construction of the `NonEmptyBlob<4096>`
inside `SigBlob` (the `amplify::confinement` wrapper is outside this
repository).  Construction succeeds exactly when the blob is non-empty
and its size is at most 4096 bytes ("each signature blob non-empty,
size-bounded"). -/
def SigBlob.mk? (bytes : List Nat) : Option SigBlob :=
  if 1 ≤ bytes.length ∧ bytes.length ≤ 4096 then some ⟨bytes⟩ else none

/-- The `impl Default for SigBlob`: `SigBlob(NonEmptyBlob::with(0))`, a
single zero byte. -/
def SigBlob.default : SigBlob := ⟨[0]⟩

/-- The `ContentSigs`: wrapper around `Confined<BTreeMap<Identity, SigBlob>, 1, 10>`,
modelled as the map's entry list. -/
structure ContentSigs where
  entries : List (Identity × SigBlob)
deriving DecidableEq, Repr

/-- Modelled from the spec: construction of the `Confined<BTreeMap<_, _>, 1, 10>`
inside `ContentSigs` (the `amplify::confinement` wrapper is outside this
repository).  Construction succeeds exactly when the map has between 1
and 10 entries ("identity→signature blob, 1..10 entries"); the entry
list must have pairwise distinct keys to model a map. -/
def ContentSigs.mk? (entries : List (Identity × SigBlob)) : Option ContentSigs :=
  if 1 ≤ entries.length ∧ entries.length ≤ 10 ∧ (entries.map Prod.fst).Nodup then
    some ⟨entries⟩
  else none

/-! ## `persistence/inventory.rs`: the `consume` ingestion pipeline (claim C1) -/

/-- One state transition, as used by `consume`: only its identity matters
to the bundle-consistency check. -/
abbrev TransitionStub := Nat

/-- The `TransitionBundle`: `known_transitions: OpId→Transition` (partial) and
`input_map: Opout→OpId`, each modelled as the map's entry list. -/
structure TransitionBundle where
  known_transitions : List (OpId × TransitionStub)
  input_map : List (Opout × OpId)
deriving DecidableEq, Repr

/-- Modelled from the spec: `bundle_id()` is a hash of the bundle content,
stable across partial reveals; only its value being determined by the
bundle matters here, so the bundle itself stands for its id. -/
def TransitionBundle.bundleId (b : TransitionBundle) : TransitionBundle := b

/-- An anchor proof, opaque to the consume-level checks. -/
abbrev Anchor := Nat

/-- The `Fascia`: the unit of ingestion — a witness id, its anchor, and the
per-contract bundles it carries. -/
structure Fascia where
  witness_id : XWitnessId
  anchor : Anchor
  bundles : List (ContractId × TransitionBundle)
deriving DecidableEq, Repr

/-- The `ConsumeError::InvalidBundle(ContractId, BundleId)` — the only
consume-level error the default `consume` method itself produces. -/
inductive ConsumeError where
  | invalidBundle (contract : ContractId) (bundle : TransitionBundle)
deriving DecidableEq, Repr

/-- Inventory storage as observable through `consume`: the recorded
witness anchors and the consumed (contract, bundle, witness) triples. -/
structure Storage where
  witnesses : List (XWitnessId × Anchor)
  bundles : List (ContractId × TransitionBundle × XWitnessId)
deriving DecidableEq, Repr

/-- Modelled from the spec: `consume_witness` (abstract trait method)
"records its anchor" — it appends the seal witness to storage. -/
def Storage.consumeWitness (st : Storage) (wid : XWitnessId) (anchor : Anchor) : Storage :=
  { st with witnesses := st.witnesses ++ [(wid, anchor)] }

/-- Modelled from the spec: `consume_bundle` (abstract trait method)
"each bundle is folded into storage" — it appends the bundle record. -/
def Storage.consumeBundle (st : Storage) (cid : ContractId) (b : TransitionBundle)
    (wid : XWitnessId) : Storage :=
  { st with bundles := st.bundles ++ [(cid, b, wid)] }

/-- The bundle-consistency check of `consume`:
`known_transitions.keys() ⊆ input_map.values()` as a `BTreeSet` subset test. -/
def TransitionBundle.consistent (b : TransitionBundle) : Bool :=
  (b.known_transitions.map Prod.fst).all
    (fun id => (b.input_map.map Prod.snd).contains id)

/-- The bundle loop of `consume`: for each (contract, bundle) pair check
consistency — returning `InvalidBundle` on violation (storage as mutated
so far is kept, matching `&mut self` semantics) — else consume the
bundle. -/
def consumeBundles (wid : XWitnessId) :
    List (ContractId × TransitionBundle) → Storage → Option ConsumeError × Storage
  | [], st => (none, st)
  | (cid, b) :: rest, st =>
    if b.consistent then
      consumeBundles wid rest (st.consumeBundle cid b wid)
    else
      (some (.invalidBundle cid b.bundleId), st)

/-- The `Inventory::consume` (default trait method): records the witness
anchor first, then validates and consumes every (contract, bundle) pair,
returning early with `InvalidBundle` on the first inconsistent bundle. -/
def consume (st : Storage) (fascia : Fascia) : Option ConsumeError × Storage :=
  let st := st.consumeWitness fascia.witness_id fascia.anchor
  consumeBundles fascia.witness_id fascia.bundles st

/-! ## `persistence/inventory.rs`: the composition engine
(`compose` / `compose_deterministic`, claims C2–C5, C9) -/

/-- The `PersistedState`: state carried by one assignment —
`Amount(value, blinding, asset tag)` or `Data(value, blinding)`. -/
inductive PersistedState where
  | amount (value : Nat) (blinding : Nat) (tag : Nat)
  | data (value : Nat) (blinding : Nat)
deriving DecidableEq, Repr

/-- Modelled from the spec: `PersistedState::update_blinding` (outside the
given sources) re-blinds carried-forward state; the Pedersen blinding
factor applies to `Amount` state, the value is unchanged. -/
def PersistedState.updateBlinding : PersistedState → Nat → PersistedState
  | .amount v _ t, b => .amount v b t
  | .data v bl, _ => .data v bl

/-- The `GraphSeal::with_blinded_vout(method, vout, blinding)`. -/
structure GraphSeal where
  method : Nat
  vout : Vout
  blinding : Nat
deriving DecidableEq, Repr

/-- The `BuilderSeal<GraphSeal>`: a revealed graph seal or a concealed secret
seal, chain-tagged (`XChain::with(layer1, seal)`). -/
inductive BuilderSeal where
  | revealed (layer1 : Nat) (gs : GraphSeal)
  | concealed (layer1 : Nat) (s : SecretSeal)
deriving DecidableEq, Repr

/-- One owned-state output accumulated by a transition builder:
assignment type, builder seal, and persisted state. -/
structure OwnedOutput where
  ty : AssignmentType
  aseal : BuilderSeal
  state : PersistedState
deriving DecidableEq, Repr

/-- A completed `Transition`: inputs (prior opouts consumed together with
the state they carried) and owned-state outputs, in builder insertion
order. -/
structure Transition where
  inputs : List (Opout × PersistedState)
  outputs : List OwnedOutput
deriving DecidableEq, Repr

/-- Modelled from the spec: `TransitionBuilder` (outside the given
sources) resolved for a contract + interface + operation, pre-seeded with
the contract's asset tags; it accumulates inputs and owned-state outputs
and reports the declared default assignment and the assignment type for
a field name. -/
structure TransitionBuilder where
  contractId : ContractId
  assetTags : List (AssignmentType × Nat)
  defaultAssignmentField : Option FieldName
  assignmentsTypes : List (FieldName × AssignmentType)
  inputs : List (Opout × PersistedState)
  outputs : List OwnedOutput
deriving DecidableEq, Repr

/-- The `TransitionBuilder::default_assignment`. -/
def TransitionBuilder.defaultAssignment (b : TransitionBuilder) : Option FieldName :=
  b.defaultAssignmentField

/-- The `TransitionBuilder::assignments_type`. -/
def TransitionBuilder.assignmentsType (b : TransitionBuilder) (f : FieldName) :
    Option AssignmentType :=
  (b.assignmentsTypes.find? fun p => p.1 == f).map (·.2)

/-- The `TransitionBuilder::add_input`. -/
def TransitionBuilder.addInput (b : TransitionBuilder) (opout : Opout)
    (state : PersistedState) : TransitionBuilder :=
  { b with inputs := b.inputs ++ [(opout, state)] }

/-- The `TransitionBuilder::add_owned_state_raw`. -/
def TransitionBuilder.addOwnedStateRaw (b : TransitionBuilder) (ty : AssignmentType)
    (sl : BuilderSeal) (state : PersistedState) : TransitionBuilder :=
  { b with outputs := b.outputs ++ [⟨ty, sl, state⟩] }

/-- The asset tag the builder was seeded with for an assignment type. -/
def TransitionBuilder.tagOf (b : TransitionBuilder) (ty : AssignmentType) : Nat :=
  ((b.assetTags.find? fun p => p.1 == ty).map (·.2)).getD 0

/-- The `TransitionBuilder::add_fungible_state_raw`: emits a fungible output
of the given value under the builder's asset tag for the type, with the
supplied Pedersen blinding factor. -/
def TransitionBuilder.addFungibleStateRaw (b : TransitionBuilder) (ty : AssignmentType)
    (sl : BuilderSeal) (value : Nat) (blinding : Nat) : TransitionBuilder :=
  b.addOwnedStateRaw ty sl (.amount value blinding (b.tagOf ty))

/-- The `TransitionBuilder::add_data_raw`: emits a data output. -/
def TransitionBuilder.addDataRaw (b : TransitionBuilder) (ty : AssignmentType)
    (sl : BuilderSeal) (value : Nat) (blinding : Nat) : TransitionBuilder :=
  b.addOwnedStateRaw ty sl (.data value blinding)

/-- The `TransitionBuilder::complete_transition`. -/
def TransitionBuilder.completeTransition (b : TransitionBuilder) : Transition :=
  ⟨b.inputs, b.outputs⟩

/-- The `TransitionInfo`: a completed transition together with the previous
outputs it consumes (`inputs`, the "consumed outputs"). -/
structure TransitionInfo where
  transition : Transition
  inputs : List XOutputSeal
deriving DecidableEq, Repr

/-- The `Batch`: the main transition info plus bounded blank transitions. -/
structure Batch where
  main : TransitionInfo
  blanks : List TransitionInfo
deriving DecidableEq, Repr

/-- The `Beneficiary` of an invoice: a blinded (concealed) seal, or a witness
vout to be supplied by the caller. -/
inductive Beneficiary where
  | blindedSeal (s : SecretSeal)
  | witnessVout (addr : Nat)
deriving DecidableEq, Repr

/-- The `NonFungible`: the single currently supported non-fungible kind. -/
inductive NonFungible where
  | rgb21 (allocation : Nat)
deriving DecidableEq, Repr

/-- The `InvoiceState`: the owned state an invoice requests.  `void` and
`attach` model the variants hit by the `todo!` catch-all arm of
`compose_deterministic`. -/
inductive InvoiceState where
  | amount (amt : Nat)
  | data (nf : NonFungible)
  | void
  | attach (att : Nat)
deriving DecidableEq, Repr

/-- The `RgbInvoice`, restricted to the fields `compose_deterministic`
reads.  `layer1` models `invoice.layer1()` and `beneficiaryLayer1`
models `invoice.beneficiary.chain_network().layer1()` (the source
shadows the former with the latter before resolving the beneficiary
seal, while the allocator-derived seals keep using the former). -/
structure RgbInvoice where
  expiry : Option Int
  contract : Option ContractId
  iface : Option IfaceName
  operation : Option TypeName
  assignment : Option FieldName
  beneficiary : Beneficiary
  beneficiaryLayer1 : Nat
  layer1 : Nat
  owned_state : InvoiceState
deriving DecidableEq, Repr

/-- The `ComposeError`, flattening the wrapped `BuilderError` /
`TransitionInfoError` / `InventoryError` / `StashError` conversions the
source performs with `?` into dedicated constructors. -/
inductive ComposeError where
  | tooManyContracts
  | noBlankOrChange (velocity : VelocityHint) (ty : AssignmentType)
  | noBeneficiaryOutput
  | invoiceExpired
  | noContract
  | noIface
  | insufficientState
  | builderNoDefaultAssignment
  | builderInvalidStateField (f : FieldName)
  | inventoryError
deriving DecidableEq, Repr

/-- Outcome of a computation that may return a value, return an error
value, or abort (Rust `panic!` / `todo!`). -/
inductive POut (α : Type) where
  | ok (a : α)
  | err (e : ComposeError)
  | panic
deriving DecidableEq, Repr

abbrev ComposeOut := POut Batch

/-- Modelled from the spec: the read accessors of the storage port used
by `compose_deterministic` (abstract trait methods of `Inventory` /
`Stash`): builder resolution for the main and blank transitions,
contract supplement (per-type velocity hints), state lookup for
previous outputs, and the contracts sharing an output.  A `none` from a
builder resolution models the stash/data errors the source propagates
with `?`. -/
structure InventoryModel where
  transitionBuilderRes : ContractId → IfaceName → Option TypeName → Option TransitionBuilder
  blankBuilderRes : ContractId → IfaceName → Option TransitionBuilder
  contractSuppl : ContractId → Option (List (AssignmentType × VelocityHint))
  stateForOutpoints : ContractId → List XOutputSeal → List ((Opout × XOutputSeal) × PersistedState)
  contractsByOutputs : XOutputSeal → List ContractId

/-- The `output_for_assignment` closure of `compose_deterministic`:
pulls the velocity hint from the contract supplement (or the default),
asks the allocator for a vout (failing with `NoBlankOrChange` when none
is free), and builds a revealed seal blinded by the seal blinder. -/
def outputForAssignment (M : InventoryModel)
    (allocator : ContractId → AssignmentType → VelocityHint → Option Vout)
    (sealBlinder : ContractId → AssignmentType → Nat)
    (method : Nat) (layer1 : Nat) (id : ContractId) (assignmentType : AssignmentType) :
    Except ComposeError BuilderSeal :=
  let velocity := ((M.contractSuppl id).bind fun suppl =>
    (suppl.find? fun p => p.1 == assignmentType).map (·.2)).getD 0
  match allocator id assignmentType velocity with
  | none => .error (.noBlankOrChange velocity assignmentType)
  | some vout => .ok (.revealed layer1 ⟨method, vout, sealBlinder id assignmentType⟩)

/-- The "2. Prepare transition" loop of `compose_deterministic`: every
candidate state entry is added as an input; non-matching-type state is
carried forward re-blinded to a freshly allocated output of the same
type; matching-type fungible amounts are summed and matching-type data
values collected.  The accumulator is
(builder, main inputs, fungible sum, data candidates). -/
def processInputs (M : InventoryModel)
    (allocator : ContractId → AssignmentType → VelocityHint → Option Vout)
    (pedersenBlinder sealBlinder : ContractId → AssignmentType → Nat)
    (method layer1 : Nat) (contractId : ContractId) (assignmentId : AssignmentType) :
    List ((Opout × XOutputSeal) × PersistedState) →
    TransitionBuilder × List XOutputSeal × Nat × List Nat →
    Except ComposeError (TransitionBuilder × List XOutputSeal × Nat × List Nat)
  | [], acc => .ok acc
  | ((opout, output), state) :: rest, (builder, mainInputs, sumInputs, dataInputs) =>
    let builder := builder.addInput opout state
    let mainInputs := mainInputs ++ [output]
    if opout.ty ≠ assignmentId then
      match outputForAssignment M allocator sealBlinder method layer1 contractId opout.ty with
      | .error e => .error e
      | .ok sl =>
        let state' := state.updateBlinding (pedersenBlinder contractId assignmentId)
        processInputs M allocator pedersenBlinder sealBlinder method layer1 contractId
          assignmentId rest
          (builder.addOwnedStateRaw opout.ty sl state', mainInputs, sumInputs, dataInputs)
    else
      match state with
      | .amount value _ _ =>
        processInputs M allocator pedersenBlinder sealBlinder method layer1 contractId
          assignmentId rest (builder, mainInputs, sumInputs + value, dataInputs)
      | .data value _ =>
        processInputs M allocator pedersenBlinder sealBlinder method layer1 contractId
          assignmentId rest (builder, mainInputs, sumInputs, dataInputs ++ [value])

/-- The "Add change" / fulfillment step of `compose_deterministic`:
fungible invoices compare the accumulated sum with the requested amount
(change output on `Greater`, `InsufficientState` on `Less`), then emit
the beneficiary output; RGB21 invoices require the requested allocation
among the collected candidates; any other invoice state hits the
`todo!` arm, modelled as `panic`. -/
def mainTransitionStep (M : InventoryModel)
    (allocator : ContractId → AssignmentType → VelocityHint → Option Vout)
    (pedersenBlinder sealBlinder : ContractId → AssignmentType → Nat)
    (method layer1 : Nat) (contractId : ContractId) (assignmentId : AssignmentType)
    (beneficiary : BuilderSeal) (builder : TransitionBuilder)
    (sumInputs : Nat) (dataInputs : List Nat) (ownedState : InvoiceState) :
    POut Transition :=
  match ownedState with
  | .amount amt =>
    match compare sumInputs amt with
    | .gt =>
      match outputForAssignment M allocator sealBlinder method layer1 contractId assignmentId with
      | .error e => .err e
      | .ok sl =>
        let builder := builder.addFungibleStateRaw assignmentId sl (sumInputs - amt)
          (pedersenBlinder contractId assignmentId)
        .ok ((builder.addFungibleStateRaw assignmentId beneficiary amt
          (pedersenBlinder contractId assignmentId)).completeTransition)
    | .lt => .err .insufficientState
    | .eq =>
      .ok ((builder.addFungibleStateRaw assignmentId beneficiary amt
        (pedersenBlinder contractId assignmentId)).completeTransition)
  | .data (.rgb21 allocation) =>
    if dataInputs.contains allocation then
      .ok ((builder.addDataRaw assignmentId beneficiary allocation
        (sealBlinder contractId assignmentId)).completeTransition)
    else .err .insufficientState
  | .void => .panic
  | .attach _ => .panic

/-- The "3. Prepare other transitions / Enumerate state" step: for every
spent output, the state every *other* contract has on it, grouped by
contract. -/
def spentStateFor (M : InventoryModel) (contractId : ContractId)
    (prevOutputs : List XOutputSeal) :
    List (ContractId × List ((Opout × XOutputSeal) × PersistedState)) :=
  let ids := (prevOutputs.flatMap fun o =>
    (M.contractsByOutputs o).filter (· ≠ contractId)).dedup
  ids.map fun id =>
    (id, (prevOutputs.filter fun o => (M.contractsByOutputs o).contains id).flatMap
      fun o => M.stateForOutpoints id [o])

/-- The per-contract inner loop of the blank-transition construction:
each spent entry is consumed and re-emitted unchanged at a freshly
allocated output of the same type. -/
def blankLoop (M : InventoryModel)
    (allocator : ContractId → AssignmentType → VelocityHint → Option Vout)
    (sealBlinder : ContractId → AssignmentType → Nat)
    (method layer1 : Nat) (id : ContractId) :
    List ((Opout × XOutputSeal) × PersistedState) →
    TransitionBuilder × List XOutputSeal →
    Except ComposeError (TransitionBuilder × List XOutputSeal)
  | [], acc => .ok acc
  | ((opout, output), state) :: rest, (builder, outputs) =>
    match outputForAssignment M allocator sealBlinder method layer1 id opout.ty with
    | .error e => .error e
    | .ok sl =>
      blankLoop M allocator sealBlinder method layer1 id rest
        ((builder.addInput opout state).addOwnedStateRaw opout.ty sl state,
          outputs ++ [output])

/-- The upper bound of the blanks vector: `Confined<Vec<_>, 0, {U24 - 1}>`. -/
def MAX_BLANKS : Nat := 2 ^ 24 - 1

/-- The "Construct blank transitions" loop: one blank transition per
other contract, pushed into the confined vector (`TooManyContracts` on
overflow). -/
def buildBlanks (M : InventoryModel)
    (allocator : ContractId → AssignmentType → VelocityHint → Option Vout)
    (sealBlinder : ContractId → AssignmentType → Nat)
    (method layer1 : Nat) (iface : IfaceName) :
    List (ContractId × List ((Opout × XOutputSeal) × PersistedState)) →
    List TransitionInfo → Except ComposeError (List TransitionInfo)
  | [], acc => .ok acc
  | (id, opouts) :: rest, acc =>
    match M.blankBuilderRes id iface with
    | none => .error .inventoryError
    | some blankBuilder =>
      match blankLoop M allocator sealBlinder method layer1 id opouts (blankBuilder, []) with
      | .error e => .error e
      | .ok (builder, outputs) =>
        if acc.length < MAX_BLANKS then
          buildBlanks M allocator sealBlinder method layer1 iface rest
            (acc ++ [⟨builder.completeTransition, outputs⟩])
        else .error .tooManyContracts

/-- The beneficiary materialization step of `compose_deterministic`:
a blinded-seal beneficiary is used as given (concealed); a witness-vout
beneficiary requires a caller-supplied vout, else `NoBeneficiaryOutput`. -/
def resolveBeneficiary (invoice : RgbInvoice) (beneficiaryVout : Option Vout)
    (method : Nat) (sealBlinder : ContractId → AssignmentType → Nat)
    (contractId : ContractId) (assignmentId : AssignmentType) :
    Except ComposeError BuilderSeal :=
  match invoice.beneficiary, beneficiaryVout with
  | .blindedSeal s, _ => .ok (.concealed invoice.beneficiaryLayer1 s)
  | .witnessVout _, some vout =>
    .ok (.revealed invoice.beneficiaryLayer1
      ⟨method, vout, sealBlinder contractId assignmentId⟩)
  | .witnessVout _, none => .error .noBeneficiaryOutput

/-- The `Inventory::compose_deterministic`.  `now` models
`Utc::now().timestamp()`; `prevOutputs0` is deduplicated into a set as
the source collects `prev_outputs` into a `HashSet`. -/
def composeDeterministic (M : InventoryModel) (now : Int) (invoice : RgbInvoice)
    (prevOutputs0 : List XOutputSeal) (method : Nat) (beneficiaryVout : Option Vout)
    (allocator : ContractId → AssignmentType → VelocityHint → Option Vout)
    (pedersenBlinder : ContractId → AssignmentType → Nat)
    (sealBlinder : ContractId → AssignmentType → Nat) : ComposeOut :=
  let layer1 := invoice.layer1
  let prevOutputs := prevOutputs0.dedup
  -- 1. Prepare the data
  if (invoice.expiry.map fun e => decide (e < now)).getD false then
    .err .invoiceExpired
  else
    match invoice.contract with
    | none => .err .noContract
    | some contractId =>
      match invoice.iface with
      | none => .err .noIface
      | some iface =>
        match M.transitionBuilderRes contractId iface invoice.operation with
        | none => .err .inventoryError
        | some mainBuilder =>
          match invoice.assignment.orElse fun _ => mainBuilder.defaultAssignment with
          | none => .err .builderNoDefaultAssignment
          | some assignmentName =>
            match mainBuilder.assignmentsType assignmentName with
            | none => .err (.builderInvalidStateField assignmentName)
            | some assignmentId =>
              match resolveBeneficiary invoice beneficiaryVout method sealBlinder
                  contractId assignmentId with
              | .error e => .err e
              | .ok beneficiary =>
                -- 2. Prepare transition
                match processInputs M allocator pedersenBlinder sealBlinder method layer1
                    contractId assignmentId
                    (M.stateForOutpoints contractId prevOutputs)
                    (mainBuilder, [], 0, []) with
                | .error e => .err e
                | .ok (builder, mainInputs, sumInputs, dataInputs) =>
                  match mainTransitionStep M allocator pedersenBlinder sealBlinder method
                      layer1 contractId assignmentId beneficiary builder sumInputs
                      dataInputs invoice.owned_state with
                  | .err e => .err e
                  | .panic => .panic
                  | .ok mainTransition =>
                    -- 3. Prepare other transitions
                    match buildBlanks M allocator sealBlinder method layer1 iface
                        (spentStateFor M contractId prevOutputs) [] with
                    | .error e => .err e
                    | .ok blanks => .ok ⟨⟨mainTransition, mainInputs⟩, blanks⟩

/-! ## `persistence/inventory.rs`: the graph builder (`consign`, claims C6, C7) -/

/-- One assignment slot of a transition as `consign` reads it: either the
graph seal is revealed (and `conceal` maps it to its secret seal), or
only the concealed secret seal is known.  `conceal` models
`to_confidential_seals`, `revealedSeal` models `revealed_seal_at`. -/
inductive Assign where
  | revealed (gs : Nat) (secret : SecretSeal)
  | confidential (secret : SecretSeal)
deriving DecidableEq, Repr

def Assign.conceal : Assign → SecretSeal
  | .revealed _ s => s
  | .confidential s => s

def Assign.revealedSeal : Assign → Option Nat
  | .revealed g _ => some g
  | .confidential _ => none

/-- A transition as the graph builder reads it: its id, its inputs'
previous opouts, and its typed assignments. -/
structure ConsTransition where
  id : OpId
  inputs : List Opout
  assignments : List (AssignmentType × List Assign)
deriving DecidableEq, Repr

/-- The `Terminal`: the seal set marking a disclosure endpoint for one
bundle; `consign` always records the concealed form of the seal
(`seal.map(TerminalSeal::from)` after `conceal`). -/
structure Terminal where
  seals : List SecretSeal
deriving DecidableEq, Repr

/-- The `Terminal::new`. -/
def Terminal.new (s : SecretSeal) : Terminal := ⟨[s]⟩

/-- The `BundledWitness` as the graph builder manipulates it: the witness id,
the bundle ids it anchors, and the transitions revealed into it
(`anchored_bundles.reveal_transition`). -/
structure BundledWitness where
  witnessId : XWitnessId
  bundleIds : List BundleId
  revealed : List OpId
deriving DecidableEq, Repr

/-- Modelled from the spec: `reveal_transition` (accessor outside the
given sources) adds the transition to the bundle's known transitions. -/
def BundledWitness.revealTransition (bw : BundledWitness) (opid : OpId) : BundledWitness :=
  { bw with revealed := bw.revealed ++ [opid] }

/-- Modelled from the spec: `merge_reveal` of two `BundledWitness` for
the same witness id combines their partial reveals (commutative,
idempotent on the carried sets). -/
def BundledWitness.mergeReveal (a b : BundledWitness) : BundledWitness :=
  ⟨a.witnessId, (a.bundleIds ++ b.bundleIds).dedup, (a.revealed ++ b.revealed).dedup⟩

/-- Genesis data as `consign` reads it. -/
structure GenesisInfo where
  schemaId : Nat
deriving DecidableEq, Repr

/-- The `SchemaIfaces`: a schema with the interface implementations it
supports (iface id → impl). -/
structure SchemaIfaces where
  schemaId : Nat
  iimpls : List (Nat × Nat)
deriving DecidableEq, Repr

/-- The `Consignment`: the exported proof package assembled by `consign`. -/
structure Consignment where
  schemaId : Nat
  genesisContract : ContractId
  ifaces : List (Nat × Nat × Nat)
  bundles : List BundledWitness
  terminals : List (BundleId × Terminal)
  transfer : Bool
deriving DecidableEq, Repr

/-- The `ConsignerError`, with the stash/inventory lookup failures the
source propagates with `?` collapsed into one constructor. -/
inductive ConsignerError where
  | tooManyTerminals
  | tooManyBundles
  | concealedPublicState (opout : Opout)
  | stash
deriving DecidableEq, Repr

/-- Modelled from the spec: the read accessors of the storage port used
by `consign` (abstract trait methods of `Inventory` / `Stash`); a `none`
models the lookup failures the source propagates with `?`. -/
structure StashModel where
  publicOpouts : ContractId → List Opout
  opoutsByOutputs : ContractId → List XOutputSeal → List Opout
  opoutsByTerminals : List SecretSeal → List Opout
  transitionAt : OpId → Option ConsTransition
  opBundleId : OpId → Option BundleId
  bundledWitnessAt : BundleId → Option BundledWitness
  genesisAt : ContractId → Option GenesisInfo
  schemaAt : Nat → Option SchemaIfaces
  ifaceById : Nat → Option Nat

/-- Insert-or-replace into an association list modelling a `BTreeMap`
(the first occurrence of the key keeps its position). -/
def alistInsert {ν : Type} (k : Nat) (v : ν) : List (Nat × ν) → List (Nat × ν)
  | [] => [(k, v)]
  | (k', v') :: rest =>
    if k' = k then (k, v) :: rest else (k', v') :: alistInsert k v rest

/-- Lexicographic `Ord` on `Opout` (derived field order: op, ty, no). -/
def Opout.lexLe (a b : Opout) : Bool :=
  a.op < b.op ∨ (a.op = b.op ∧ (a.ty < b.ty ∨ (a.ty = b.ty ∧ a.no ≤ b.no)))

/-- Insertion into a sorted opout list (modelling `BTreeSet` order). -/
def insertOpout (o : Opout) : List Opout → List Opout
  | [] => [o]
  | x :: xs => if Opout.lexLe o x then o :: x :: xs else x :: insertOpout o xs

/-- The deduplicated, id-ordered opout set `consign` starts from
(`BTreeSet<Opout>`). -/
def opoutSet (l : List Opout) : List Opout := l.dedup.foldr insertOpout []

/-- The state accumulated by the two collection phases of `consign`:
the anchored bundled witnesses (by bundle id), the collected
transitions (by op id) and the terminals (by bundle id). -/
structure CollectAcc where
  bundledWitnesses : List (BundleId × BundledWitness)
  transitions : List (OpId × ConsTransition)
  terminals : List (BundleId × Terminal)
deriving Repr

/-- The inner index loop of the terminal scan of `consign`: for each
assignment slot, a slot whose concealed seal matches a caller secret
seal records a terminal; otherwise a slot at the disclosed output's own
(type, index) records a terminal from its revealed seal (concealed), or
fails with `ConcealedPublicState` when the seal is not revealed. -/
def scanIndices (secretSeals : List SecretSeal) (opout : Opout) (bundleId : BundleId)
    (tyId : AssignmentType) :
    List Assign → Nat → List (BundleId × Terminal) →
    Except ConsignerError (List (BundleId × Terminal))
  | [], _, terminals => .ok terminals
  | a :: rest, index, terminals =>
    let secret := a.conceal
    if secretSeals.contains secret then
      scanIndices secretSeals opout bundleId tyId rest (index + 1)
        (alistInsert bundleId (Terminal.new secret) terminals)
    else if opout.no = index ∧ opout.ty = tyId then
      match a.revealedSeal with
      | some _ =>
        scanIndices secretSeals opout bundleId tyId rest (index + 1)
          (alistInsert bundleId (Terminal.new secret) terminals)
      | none => .error (.concealedPublicState opout)
    else
      scanIndices secretSeals opout bundleId tyId rest (index + 1) terminals

/-- The outer typed-assignments loop of the terminal scan. -/
def scanTerminals (secretSeals : List SecretSeal) (opout : Opout) (bundleId : BundleId) :
    List (AssignmentType × List Assign) → List (BundleId × Terminal) →
    Except ConsignerError (List (BundleId × Terminal))
  | [], terminals => .ok terminals
  | (tyId, assigns) :: rest, terminals =>
    match scanIndices secretSeals opout bundleId tyId assigns 0 terminals with
    | .error e => .error e
    | .ok terminals => scanTerminals secretSeals opout bundleId rest terminals

/-- Phase "1.3/2" of `consign`: for every collected opout (genesis
skipped), fetch its transition and anchoring bundle id, scan its
assignments for terminals, and record the bundled witness if not yet
present. -/
def collectPhase1 (S : StashModel) (contractId : ContractId)
    (secretSeals : List SecretSeal) :
    List Opout → CollectAcc → Except ConsignerError CollectAcc
  | [], acc => .ok acc
  | opout :: rest, acc =>
    if opout.op = contractId then collectPhase1 S contractId secretSeals rest acc
    else
      match S.transitionAt opout.op with
      | none => .error .stash
      | some transition =>
        let transitions := alistInsert opout.op transition acc.transitions
        match S.opBundleId transition.id with
        | none => .error .stash
        | some bundleId =>
          match scanTerminals secretSeals opout bundleId transition.assignments
              acc.terminals with
          | .error e => .error e
          | .ok terminals =>
            match acc.bundledWitnesses.lookup bundleId with
            | some _ =>
              collectPhase1 S contractId secretSeals rest
                ⟨acc.bundledWitnesses, transitions, terminals⟩
            | none =>
              match S.bundledWitnessAt bundleId with
              | none => .error .stash
              | some bw =>
                collectPhase1 S contractId secretSeals rest
                  ⟨acc.bundledWitnesses ++ [(bundleId, bw)], transitions, terminals⟩

/-- Phase "2. Collect all state transitions between terminals and
genesis" of `consign`: backward traversal over the `ids` stack
(`Vec::pop` takes the head of this list, `extend` pushes in front),
revealing every reached transition into its bundled witness.  `fuel`
bounds the number of iterations; exhaustion (`none`) models
non-termination on a cyclic graph. -/
def collectPhase2 (S : StashModel) (contractId : ContractId) :
    Nat → List OpId → CollectAcc → Option (Except ConsignerError CollectAcc)
  | 0, [], acc => some (.ok acc)
  | 0, _ :: _, _ => none
  | _ + 1, [], acc => some (.ok acc)
  | fuel + 1, id :: ids, acc =>
    if id = contractId then collectPhase2 S contractId fuel ids acc
    else
      match S.transitionAt id with
      | none => some (.error .stash)
      | some transition =>
        let ids := (transition.inputs.map (·.op)).reverse ++ ids
        let transitions := alistInsert id transition acc.transitions
        match S.opBundleId transition.id with
        | none => some (.error .stash)
        | some bundleId =>
          let bw0 := match acc.bundledWitnesses.lookup bundleId with
            | some bw => some bw
            | none => S.bundledWitnessAt bundleId
          match bw0 with
          | none => some (.error .stash)
          | some bw =>
            collectPhase2 S contractId fuel ids
              ⟨alistInsert bundleId (bw.revealTransition transition.id)
                acc.bundledWitnesses, transitions, acc.terminals⟩

/-- Step 4 of `consign`: deduplicate the collected bundled witnesses by
witness id, merging via merge-reveal on collision. -/
def dedupByWitness : List BundledWitness →
    List (XWitnessId × BundledWitness) → List (XWitnessId × BundledWitness)
  | [], m => m
  | bw :: rest, m =>
    match m.lookup bw.witnessId with
    | some prev => dedupByWitness rest (alistInsert bw.witnessId (prev.mergeReveal bw) m)
    | none => dedupByWitness rest (m ++ [(bw.witnessId, bw)])

/-- The collection stage of `consign` (steps 1–3): initial opout set,
terminal scan, and backward traversal. -/
def consignCollect (S : StashModel) (fuel : Nat) (contractId : ContractId)
    (outputs : List XOutputSeal) (secretSeals : List SecretSeal) :
    Option (Except ConsignerError CollectAcc) :=
  let opouts := opoutSet (S.publicOpouts contractId ++
    S.opoutsByOutputs contractId outputs ++ S.opoutsByTerminals secretSeals)
  match collectPhase1 S contractId secretSeals opouts ⟨[], [], []⟩ with
  | .error e => some (.error e)
  | .ok acc =>
    let ids0 := ((acc.transitions.flatMap fun p => p.2.inputs.map (·.op))).reverse
    collectPhase2 S contractId fuel ids0 acc

/-- The assembly stage of `consign` (step 5): schema, genesis, interface
pairs, then the confined bundle set and terminal map.  The two
confinement ceilings are parameters ("consensus-derived ceiling",
modelled from the spec since the `Consignment` field bounds live outside
the given sources); exceeding one fails with the corresponding error
rather than truncating, bundles checked first. -/
def consignAssemble (S : StashModel) (transferFlag : Bool)
    (bundleCeiling terminalCeiling : Nat) (contractId : ContractId)
    (acc : CollectAcc) : Except ConsignerError Consignment :=
  match S.genesisAt contractId with
  | none => .error .stash
  | some genesis =>
    match S.schemaAt genesis.schemaId with
    | none => .error .stash
    | some schemaIfaces =>
      match schemaIfaces.iimpls.mapM
          (fun p => (S.ifaceById p.1).map fun ifc => (p.1, ifc, p.2)) with
      | none => .error .stash
      | some ifaces =>
        let bundles := (dedupByWitness (acc.bundledWitnesses.map (·.2)) []).map (·.2)
        if bundleCeiling < bundles.length then .error .tooManyBundles
        else if terminalCeiling < acc.terminals.length then .error .tooManyTerminals
        else .ok ⟨genesis.schemaId, contractId, ifaces, bundles, acc.terminals, transferFlag⟩

/-- The `Inventory::consign`: collection followed by assembly. -/
def consign (S : StashModel) (fuel : Nat) (bundleCeiling terminalCeiling : Nat)
    (transferFlag : Bool) (contractId : ContractId)
    (outputs : List XOutputSeal) (secretSeals : List SecretSeal) :
    Option (Except ConsignerError Consignment) :=
  match consignCollect S fuel contractId outputs secretSeals with
  | none => none
  | some (.error e) => some (.error e)
  | some (.ok acc) =>
    some (consignAssemble S transferFlag bundleCeiling terminalCeiling contractId acc)

/-! # Theorems -/

/-! ## Fungible accounting helpers -/

/-- The fungible value carried by a persisted state (data state carries
none). -/
def fungibleValue : PersistedState → Nat
  | .amount v _ _ => v
  | .data _ _ => 0

/-- Sum of the fungible input amounts of a transition's input list. -/
def inputsFungibleSum (l : List (Opout × PersistedState)) : Nat :=
  (l.map fun p => fungibleValue p.2).sum

/-- Sum of the fungible output amounts of a transition's output list. -/
def outputsFungibleSum (l : List OwnedOutput) : Nat :=
  (l.map fun o => fungibleValue o.state).sum

theorem fungibleValue_updateBlinding (st : PersistedState) (x : Nat) :
    fungibleValue (st.updateBlinding x) = fungibleValue st := by
  cases st <;> rfl

theorem inputsFungibleSum_append (l : List (Opout × PersistedState))
    (p : Opout × PersistedState) :
    inputsFungibleSum (l ++ [p]) = inputsFungibleSum l + fungibleValue p.2 := by
  simp [inputsFungibleSum]

theorem outputsFungibleSum_append (l : List OwnedOutput) (o : OwnedOutput) :
    outputsFungibleSum (l ++ [o]) = outputsFungibleSum l + fungibleValue o.state := by
  simp [outputsFungibleSum]

/-! ## `compose_deterministic` unfolding and loop invariants -/

/-- Unfolding of `compose_deterministic` past its precondition checks
and resolution steps, given that each of those succeeds. -/
theorem composeDeterministic_unfold (M : InventoryModel) (now : Int) (invoice : RgbInvoice)
    (prevOutputs0 : List XOutputSeal) (method : Nat) (bv : Option Vout)
    (alloc : ContractId → AssignmentType → VelocityHint → Option Vout)
    (pb sb : ContractId → AssignmentType → Nat)
    (cid : ContractId) (ifc : IfaceName) (mb : TransitionBuilder)
    (an : FieldName) (aid : AssignmentType) (ben : BuilderSeal)
    (hexp : (invoice.expiry.map fun e => decide (e < now)).getD false = false)
    (hc : invoice.contract = some cid)
    (hi : invoice.iface = some ifc)
    (hmb : M.transitionBuilderRes cid ifc invoice.operation = some mb)
    (han : invoice.assignment.orElse (fun _ => mb.defaultAssignment) = some an)
    (hat : mb.assignmentsType an = some aid)
    (hben : resolveBeneficiary invoice bv method sb cid aid = .ok ben) :
    composeDeterministic M now invoice prevOutputs0 method bv alloc pb sb =
      match processInputs M alloc pb sb method invoice.layer1 cid aid
          (M.stateForOutpoints cid prevOutputs0.dedup) (mb, [], 0, []) with
      | .error e => .err e
      | .ok (b, mi, s, d) =>
        match mainTransitionStep M alloc pb sb method invoice.layer1 cid aid ben b s d
            invoice.owned_state with
        | .err e => .err e
        | .panic => .panic
        | .ok mt =>
          match buildBlanks M alloc sb method invoice.layer1 ifc
              (spentStateFor M cid prevOutputs0.dedup) [] with
          | .error e => .err e
          | .ok blanks => .ok ⟨⟨mt, mi⟩, blanks⟩ := by
  unfold composeDeterministic
  simp only [hexp, hc, hi, hmb, han, hat, hben, Bool.false_eq_true, if_false]

/-- Invariant of the "2. Prepare transition" loop of
`compose_deterministic`: on success the builder's outputs have grown by
carried-forward outputs only (all of non-target type), the builder's
asset tags are unchanged, and the growth of the fungible input sum
equals the growth of the fungible output sum plus the growth of the
matching-type accumulator. -/
theorem processInputs_ok_invariant (M : InventoryModel)
    (alloc : ContractId → AssignmentType → VelocityHint → Option Vout)
    (pb sb : ContractId → AssignmentType → Nat) (method layer1 : Nat)
    (cid : ContractId) (aid : AssignmentType) :
    ∀ (entries : List ((Opout × XOutputSeal) × PersistedState))
      (b0 : TransitionBuilder) (mi0 : List XOutputSeal) (s0 : Nat) (d0 : List Nat)
      (b : TransitionBuilder) (mi : List XOutputSeal) (s : Nat) (d : List Nat),
    processInputs M alloc pb sb method layer1 cid aid entries (b0, mi0, s0, d0) =
      .ok (b, mi, s, d) →
    (∃ carried, b.outputs = b0.outputs ++ carried ∧ ∀ o ∈ carried, o.ty ≠ aid) ∧
    b.assetTags = b0.assetTags ∧
    inputsFungibleSum b.inputs + s0 + outputsFungibleSum b0.outputs =
      inputsFungibleSum b0.inputs + outputsFungibleSum b.outputs + s := by
  intro entries
  induction entries with
  | nil =>
    intro b0 mi0 s0 d0 b mi s d h
    simp only [processInputs, Except.ok.injEq, Prod.mk.injEq] at h
    obtain ⟨rfl, rfl, rfl, rfl⟩ := h
    exact ⟨⟨[], by simp, by simp⟩, rfl, by omega⟩
  | cons hd tl ih =>
    intro b0 mi0 s0 d0 b mi s d h
    obtain ⟨⟨opout, output⟩, state⟩ := hd
    simp only [processInputs] at h
    by_cases hty : opout.ty ≠ aid
    · rw [if_pos hty] at h
      cases hout : outputForAssignment M alloc sb method layer1 cid opout.ty with
      | error e => rw [hout] at h; cases h
      | ok sl =>
        rw [hout] at h
        have := ih _ _ _ _ _ _ _ _ h
        obtain ⟨⟨carried, hbo, hcar⟩, htags, hsum⟩ := this
        simp only [TransitionBuilder.addOwnedStateRaw, TransitionBuilder.addInput] at hbo htags hsum
        refine ⟨⟨⟨opout.ty, sl, state.updateBlinding (pb cid aid)⟩ :: carried, ?_, ?_⟩,
          htags, ?_⟩
        · rw [hbo]; simp
        · intro o ho
          rcases List.mem_cons.mp ho with rfl | ho'
          · exact hty
          · exact hcar o ho'
        · rw [hbo] at hsum ⊢
          simp only [outputsFungibleSum, inputsFungibleSum, List.map_append,
            List.sum_append, List.map_cons, List.sum_cons, List.map_nil, List.sum_nil,
            fungibleValue_updateBlinding] at hsum ⊢
          omega
    · rw [if_neg hty] at h
      cases state with
      | amount v bl tg =>
        have := ih _ _ _ _ _ _ _ _ h
        obtain ⟨⟨carried, hbo, hcar⟩, htags, hsum⟩ := this
        simp only [TransitionBuilder.addInput] at hbo htags hsum
        refine ⟨⟨carried, hbo, hcar⟩, htags, ?_⟩
        rw [inputsFungibleSum_append] at hsum
        simp only [fungibleValue] at hsum
        omega
      | data v bl =>
        have := ih _ _ _ _ _ _ _ _ h
        obtain ⟨⟨carried, hbo, hcar⟩, htags, hsum⟩ := this
        simp only [TransitionBuilder.addInput] at hbo htags hsum
        refine ⟨⟨carried, hbo, hcar⟩, htags, ?_⟩
        rw [inputsFungibleSum_append] at hsum
        simp only [fungibleValue] at hsum
        omega

/-- The only error `output_for_assignment` produces is `NoBlankOrChange`
for the requested assignment type. -/
theorem outputForAssignment_error_shape (M : InventoryModel)
    (alloc : ContractId → AssignmentType → VelocityHint → Option Vout)
    (sb : ContractId → AssignmentType → Nat) (method layer1 : Nat)
    (id : ContractId) (ty : AssignmentType) (e : ComposeError)
    (h : outputForAssignment M alloc sb method layer1 id ty = .error e) :
    ∃ v, e = .noBlankOrChange v ty := by
  simp only [outputForAssignment] at h
  split at h
  · injection h with h
    exact ⟨_, h.symm⟩
  · cases h

/-- The only error the blank-transition inner loop produces is
`NoBlankOrChange`. -/
theorem blankLoop_error_shape (M : InventoryModel)
    (alloc : ContractId → AssignmentType → VelocityHint → Option Vout)
    (sb : ContractId → AssignmentType → Nat) (method layer1 : Nat) (id : ContractId) :
    ∀ (entries : List ((Opout × XOutputSeal) × PersistedState))
      (acc : TransitionBuilder × List XOutputSeal) (e : ComposeError),
    blankLoop M alloc sb method layer1 id entries acc = .error e →
    ∃ v t, e = .noBlankOrChange v t := by
  intro entries
  induction entries with
  | nil => intro acc e h; cases h
  | cons hd tl ih =>
    intro acc e h
    obtain ⟨⟨opout, output⟩, state⟩ := hd
    obtain ⟨builder, outputs⟩ := acc
    simp only [blankLoop] at h
    cases hout : outputForAssignment M alloc sb method layer1 id opout.ty with
    | error e' =>
      rw [hout] at h
      injection h with h
      obtain ⟨v, hv⟩ := outputForAssignment_error_shape M alloc sb method layer1 id
        opout.ty e' hout
      exact ⟨v, opout.ty, by rw [← h, hv]⟩
    | ok sl =>
      rw [hout] at h
      exact ih _ _ h

/-- The blank-transition construction never produces `InsufficientState`:
its errors are lookup failures, `TooManyContracts`, or `NoBlankOrChange`. -/
theorem buildBlanks_error_shape (M : InventoryModel)
    (alloc : ContractId → AssignmentType → VelocityHint → Option Vout)
    (sb : ContractId → AssignmentType → Nat) (method layer1 : Nat) (ifc : IfaceName) :
    ∀ (groups : List (ContractId × List ((Opout × XOutputSeal) × PersistedState)))
      (acc : List TransitionInfo) (e : ComposeError),
    buildBlanks M alloc sb method layer1 ifc groups acc = .error e →
    e = .inventoryError ∨ e = .tooManyContracts ∨ ∃ v t, e = .noBlankOrChange v t := by
  intro groups
  induction groups with
  | nil => intro acc e h; cases h
  | cons hd tl ih =>
    intro acc e h
    obtain ⟨id, opouts⟩ := hd
    simp only [buildBlanks] at h
    split at h
    · injection h with h
      exact Or.inl h.symm
    · rename_i blankBuilder hbb
      split at h
      · rename_i e' hloop
        injection h with h
        subst h
        exact Or.inr (Or.inr (blankLoop_error_shape M alloc sb method layer1 id
          opouts _ _ hloop))
      · split at h
        · exact ih _ _ h
        · injection h with h
          exact Or.inr (Or.inl h.symm)

/-! ## Claim C10: `From<ContractIface> for Rgb25` -/

/-- C10: the public conversion `From<ContractIface> for Rgb25` panics
(modelled as `none`) exactly when the provided contract interface's
`iface_id` differs from `Rgb25::IFACE_ID`; when the ids agree it returns
the wrapper, never an error value. -/
theorem rgb25_from_panics_on_iface_mismatch (c : ContractIface) :
    (Rgb25.fromContractIface c = none ↔ c.iface.iface_id ≠ Rgb25.IFACE_ID) ∧
    (c.iface.iface_id = Rgb25.IFACE_ID → Rgb25.fromContractIface c = some ⟨c⟩) := by
  unfold Rgb25.fromContractIface
  constructor
  · split <;> simp_all
  · intro h
    simp [h]

/-- Witness for C10 at a concrete interface carrying the RGB25 id. -/
theorem rgb25_from_panics_on_iface_mismatch_witness :
    Rgb25.fromContractIface ⟨⟨Rgb25.IFACE_ID⟩⟩ = some ⟨⟨⟨Rgb25.IFACE_ID⟩⟩⟩ :=
  (rgb25_from_panics_on_iface_mismatch ⟨⟨Rgb25.IFACE_ID⟩⟩).2 rfl

/-! ## Claim C8: `ContentSigs` / `SigBlob` bounds -/

/-- C8: every `ContentSigs` built by its validated constructor has
between 1 and 10 identity-to-signature entries, and every `SigBlob` in
it that was built by its validated constructor is non-empty and at most
4096 bytes; both bounds are enforced at construction. -/
theorem contentSigs_construction_bounds (entries : List (Identity × SigBlob))
    (cs : ContentSigs) (hcs : ContentSigs.mk? entries = some cs)
    (hblobs : ∀ p ∈ entries, ∃ bytes, SigBlob.mk? bytes = some p.2) :
    (1 ≤ cs.entries.length ∧ cs.entries.length ≤ 10) ∧
    ∀ p ∈ cs.entries, 1 ≤ p.2.bytes.length ∧ p.2.bytes.length ≤ 4096 := by
  unfold ContentSigs.mk? at hcs
  split at hcs
  · rename_i h
    injection hcs with hcs
    subst hcs
    refine ⟨⟨h.1, h.2.1⟩, ?_⟩
    intro p hp
    obtain ⟨bytes, hb⟩ := hblobs p hp
    unfold SigBlob.mk? at hb
    split at hb
    · rename_i hbb
      injection hb with hb
      have hpb : p.2.bytes = bytes := by rw [← hb]
      rw [hpb]
      exact hbb
    · cases hb
  · cases hcs

/-- Witness for C8 at a concrete one-entry signature map. -/
theorem contentSigs_construction_bounds_witness :
    (1 ≤ (ContentSigs.mk [(0, ⟨[0]⟩)]).entries.length ∧
      (ContentSigs.mk [(0, ⟨[0]⟩)]).entries.length ≤ 10) ∧
    ∀ p ∈ (ContentSigs.mk [(0, ⟨[0]⟩)]).entries,
      1 ≤ p.2.bytes.length ∧ p.2.bytes.length ≤ 4096 :=
  contentSigs_construction_bounds [(0, ⟨[0]⟩)] ⟨[(0, ⟨[0]⟩)]⟩ (by decide)
    (by
      intro p hp
      rw [List.mem_singleton] at hp
      subst hp
      exact ⟨[0], by decide⟩)

/-! ## Claim C1: `consume` on an inconsistent bundle -/

/-- A bundle violating `known_transitions.keys() ⊆ input_map.values()`:
it knows transition 1 but has an empty input map. -/
def badBundle : TransitionBundle := ⟨[(1, 0)], []⟩

/-- A fascia (witness id 7, anchor 9) carrying the violating bundle for
contract 3. -/
def fasciaC1 : Fascia := ⟨7, 9, [(3, badBundle)]⟩

/-- Counterexample to C1: on a fascia with an inconsistent bundle,
`consume` does return the `InvalidBundle` error, but the fascia is NOT
rejected without partial commit — the witness anchor has already been
recorded and is observable in storage afterwards. -/
theorem consume_no_partial_commit_cex :
    (consume ⟨[], []⟩ fasciaC1).1 = some (.invalidBundle 3 badBundle.bundleId) ∧
    (consume ⟨[], []⟩ fasciaC1).2.witnesses = [(7, 9)] := by decide

/-- C1 (amended): if some (contract, bundle) pair of the fascia has a
known-transition id that is not among the values of that bundle's input
map, `consume` returns the `InvalidBundle` error; however the commit is
partial: the witness anchor has already been recorded, and every bundle
preceding the first violating one has been consumed into storage. -/
theorem consume_invalidBundle_partial_commit (st : Storage) (f : Fascia)
    (h : ∃ p ∈ f.bundles, p.2.consistent = false) :
    (∃ c b, (c, b) ∈ f.bundles ∧ b.consistent = false ∧
      (consume st f).1 = some (.invalidBundle c b.bundleId)) ∧
    (consume st f).2.witnesses = st.witnesses ++ [(f.witness_id, f.anchor)] ∧
    (consume st f).2.bundles = st.bundles ++
      (f.bundles.takeWhile fun p => p.2.consistent).map (fun p => (p.1, p.2, f.witness_id)) := by
  have main : ∀ (l : List (ContractId × TransitionBundle)) (st' : Storage),
      (∃ p ∈ l, p.2.consistent = false) →
      (∃ c b, (c, b) ∈ l ∧ b.consistent = false ∧
        (consumeBundles f.witness_id l st').1 = some (.invalidBundle c b.bundleId)) ∧
      (consumeBundles f.witness_id l st').2.witnesses = st'.witnesses ∧
      (consumeBundles f.witness_id l st').2.bundles = st'.bundles ++
        (l.takeWhile fun p => p.2.consistent).map (fun p => (p.1, p.2, f.witness_id)) := by
    intro l
    induction l with
    | nil => intro st' hex; obtain ⟨p, hp, _⟩ := hex; cases hp
    | cons hd tl ih =>
      intro st' hex
      obtain ⟨c, b⟩ := hd
      by_cases hc : b.consistent
      · have hex' : ∃ p ∈ tl, p.2.consistent = false := by
          obtain ⟨p, hp, hpc⟩ := hex
          rcases List.mem_cons.mp hp with rfl | hmem
          · simp [hc] at hpc
          · exact ⟨p, hmem, hpc⟩
        have := ih (st'.consumeBundle c b f.witness_id) hex'
        obtain ⟨⟨c', b', hmem, hbc, herr⟩, hwit, hbun⟩ := this
        refine ⟨⟨c', b', List.mem_cons_of_mem _ hmem, hbc, ?_⟩, ?_, ?_⟩
        · simpa [consumeBundles, hc] using herr
        · simpa [consumeBundles, hc, Storage.consumeBundle] using hwit
        · simp only [consumeBundles, hc, if_true]
          rw [hbun]
          simp [Storage.consumeBundle, List.takeWhile, hc]
      · refine ⟨⟨c, b, List.mem_cons_self _ _, by simpa using hc, ?_⟩, ?_, ?_⟩
        · simp [consumeBundles, hc]
        · simp [consumeBundles, hc]
        · simp [consumeBundles, List.takeWhile, hc]
  have := main f.bundles (st.consumeWitness f.witness_id f.anchor) h
  obtain ⟨hfst, hwit, hbun⟩ := this
  refine ⟨?_, ?_, ?_⟩
  · simpa [consume] using hfst
  · simp only [consume]
    rw [hwit]
    simp [Storage.consumeWitness]
  · simp only [consume]
    rw [hbun]
    simp [Storage.consumeWitness]

/-- Witness for C1's amended theorem on the concrete fascia. -/
theorem consume_invalidBundle_partial_commit_witness :
    (∃ c b, (c, b) ∈ fasciaC1.bundles ∧ b.consistent = false ∧
      (consume ⟨[], []⟩ fasciaC1).1 = some (.invalidBundle c b.bundleId)) ∧
    (consume ⟨[], []⟩ fasciaC1).2.witnesses =
      ([] : List (XWitnessId × Anchor)) ++ [(fasciaC1.witness_id, fasciaC1.anchor)] ∧
    (consume ⟨[], []⟩ fasciaC1).2.bundles =
      ([] : List (ContractId × TransitionBundle × XWitnessId)) ++
      (fasciaC1.bundles.takeWhile fun p => p.2.consistent).map
        (fun p => (p.1, p.2, fasciaC1.witness_id)) :=
  consume_invalidBundle_partial_commit ⟨[], []⟩ fasciaC1
    ⟨(3, badBundle), by decide, by decide⟩

/-! ## Claim C5: precondition checks of `compose` come first -/

/-- C5: `compose_deterministic` checks its preconditions before any
state lookup: an invoice whose expiry timestamp is in the past yields
`InvoiceExpired` for every inventory model `M` alike (so no state lookup
can influence the outcome); otherwise a missing contract yields
`NoContract`, and a missing interface yields `NoIface`. -/
theorem compose_preconditions_first (M : InventoryModel) (now : Int)
    (invoice : RgbInvoice) (prevOutputs0 : List XOutputSeal) (method : Nat)
    (bv : Option Vout)
    (alloc : ContractId → AssignmentType → VelocityHint → Option Vout)
    (pb sb : ContractId → AssignmentType → Nat) :
    ((∃ e, invoice.expiry = some e ∧ e < now) →
      composeDeterministic M now invoice prevOutputs0 method bv alloc pb sb =
        .err .invoiceExpired) ∧
    ((∀ e, invoice.expiry = some e → ¬e < now) → invoice.contract = none →
      composeDeterministic M now invoice prevOutputs0 method bv alloc pb sb =
        .err .noContract) ∧
    ((∀ e, invoice.expiry = some e → ¬e < now) →
      ∀ cid, invoice.contract = some cid → invoice.iface = none →
      composeDeterministic M now invoice prevOutputs0 method bv alloc pb sb =
        .err .noIface) := by
  have hcond : ∀ (hne : ∀ e, invoice.expiry = some e → ¬e < now),
      (invoice.expiry.map fun e => decide (e < now)).getD false = false := by
    intro hne
    cases hex : invoice.expiry with
    | none => rfl
    | some e => simpa using hne e hex
  refine ⟨?_, ?_, ?_⟩
  · rintro ⟨e, he, hlt⟩
    unfold composeDeterministic
    simp [he, hlt]
  · intro hne hc
    unfold composeDeterministic
    simp [hcond hne, hc]
  · intro hne cid hc hi
    unfold composeDeterministic
    simp [hcond hne, hc, hi]

/-- Witness for C5: a concrete expired invoice is rejected as expired. -/
theorem compose_preconditions_first_witness :
    composeDeterministic
      ⟨fun _ _ _ => none, fun _ _ => none, fun _ => none, fun _ _ => [], fun _ => []⟩
      100
      ⟨some 5, none, none, none, none, .blindedSeal 55, 0, 0, .amount 50⟩
      [] 0 none (fun _ _ _ => none) (fun _ _ => 0) (fun _ _ => 0) =
      .err .invoiceExpired :=
  (compose_preconditions_first _ 100 _ [] 0 none _ _ _).1 ⟨5, rfl, by decide⟩

/-! ## Claim C9: the `todo!` arm of `compose_deterministic` panics -/

/-- C9: when the invoice's owned state is neither a fungible amount nor
an RGB21 data allocation, `compose_deterministic` does not return an
error value but aborts (the `todo!` arm), provided the earlier steps
(preconditions, resolution, input processing) have all succeeded. -/
theorem compose_todo_arm_panics (M : InventoryModel) (now : Int) (invoice : RgbInvoice)
    (prevOutputs0 : List XOutputSeal) (method : Nat) (bv : Option Vout)
    (alloc : ContractId → AssignmentType → VelocityHint → Option Vout)
    (pb sb : ContractId → AssignmentType → Nat)
    (cid : ContractId) (ifc : IfaceName) (mb : TransitionBuilder)
    (an : FieldName) (aid : AssignmentType) (ben : BuilderSeal)
    (b : TransitionBuilder) (mi : List XOutputSeal) (s : Nat) (d : List Nat)
    (hexp : (invoice.expiry.map fun e => decide (e < now)).getD false = false)
    (hc : invoice.contract = some cid)
    (hi : invoice.iface = some ifc)
    (hmb : M.transitionBuilderRes cid ifc invoice.operation = some mb)
    (han : invoice.assignment.orElse (fun _ => mb.defaultAssignment) = some an)
    (hat : mb.assignmentsType an = some aid)
    (hben : resolveBeneficiary invoice bv method sb cid aid = .ok ben)
    (hloop : processInputs M alloc pb sb method invoice.layer1 cid aid
      (M.stateForOutpoints cid prevOutputs0.dedup) (mb, [], 0, []) = .ok (b, mi, s, d))
    (hstate : invoice.owned_state = .void ∨ ∃ a, invoice.owned_state = .attach a) :
    composeDeterministic M now invoice prevOutputs0 method bv alloc pb sb = .panic := by
  rw [composeDeterministic_unfold M now invoice prevOutputs0 method bv alloc pb sb
    cid ifc mb an aid ben hexp hc hi hmb han hat hben, hloop]
  rcases hstate with h | ⟨a, h⟩ <;> simp [mainTransitionStep, h]

/-- Outputs all of non-target type contribute nothing to a filter for
the target type. -/
theorem filter_ty_eq_nil (carried : List OwnedOutput) (aid : AssignmentType)
    (h : ∀ o ∈ carried, o.ty ≠ aid) :
    carried.filter (fun o => o.ty == aid) = [] := by
  induction carried with
  | nil => rfl
  | cons hd tl ih =>
    simp only [List.filter]
    have hne : (hd.ty == aid) = false := beq_eq_false_iff_ne.mpr (h hd (.head _))
    rw [hne]
    exact ih fun o ho => h o (.tail _ ho)

theorem addFungibleStateRaw_outputs (b : TransitionBuilder) (ty : AssignmentType)
    (sl : BuilderSeal) (v bl : Nat) :
    (b.addFungibleStateRaw ty sl v bl).outputs =
      b.outputs ++ [⟨ty, sl, .amount v bl (b.tagOf ty)⟩] := rfl

theorem addFungibleStateRaw_tagOf (b : TransitionBuilder) (ty : AssignmentType)
    (sl : BuilderSeal) (v bl t : Nat) :
    (b.addFungibleStateRaw ty sl v bl).tagOf t = b.tagOf t := rfl

theorem addFungibleStateRaw_inputs (b : TransitionBuilder) (ty : AssignmentType)
    (sl : BuilderSeal) (v bl : Nat) :
    (b.addFungibleStateRaw ty sl v bl).inputs = b.inputs := rfl

theorem completeTransition_outputs (b : TransitionBuilder) :
    b.completeTransition.outputs = b.outputs := rfl

theorem completeTransition_inputs (b : TransitionBuilder) :
    b.completeTransition.inputs = b.inputs := rfl

/-! ## Claim C2: beneficiary and change outputs of a fungible invoice -/

/-- C2: for a fungible invoice requesting `amt`, when composition
succeeds the accumulated matching-type input sum `s` is at least `amt`
and the main transition's target-type outputs are exactly: one
beneficiary output of amount `amt`, preceded — exactly when `s`
strictly exceeds `amt` — by one change output of amount `s - amt` at
the freshly allocated seal produced by `output_for_assignment`; when
`s = amt` there is no change output. -/
theorem compose_fungible_beneficiary_change (M : InventoryModel) (now : Int)
    (invoice : RgbInvoice) (prevOutputs0 : List XOutputSeal) (method : Nat)
    (bv : Option Vout)
    (alloc : ContractId → AssignmentType → VelocityHint → Option Vout)
    (pb sb : ContractId → AssignmentType → Nat)
    (cid : ContractId) (ifc : IfaceName) (mb : TransitionBuilder)
    (an : FieldName) (aid : AssignmentType) (ben : BuilderSeal)
    (b : TransitionBuilder) (mi : List XOutputSeal) (s : Nat) (d : List Nat)
    (amt : Nat) (batch : Batch)
    (hexp : (invoice.expiry.map fun e => decide (e < now)).getD false = false)
    (hc : invoice.contract = some cid)
    (hi : invoice.iface = some ifc)
    (hmb : M.transitionBuilderRes cid ifc invoice.operation = some mb)
    (hmb0 : mb.outputs = [])
    (han : invoice.assignment.orElse (fun _ => mb.defaultAssignment) = some an)
    (hat : mb.assignmentsType an = some aid)
    (hben : resolveBeneficiary invoice bv method sb cid aid = .ok ben)
    (hamt : invoice.owned_state = .amount amt)
    (hloop : processInputs M alloc pb sb method invoice.layer1 cid aid
      (M.stateForOutpoints cid prevOutputs0.dedup) (mb, [], 0, []) = .ok (b, mi, s, d))
    (hres : composeDeterministic M now invoice prevOutputs0 method bv alloc pb sb =
      .ok batch) :
    amt ≤ s ∧
    (s = amt → (batch.main.transition.outputs.filter fun o => o.ty == aid) =
      [⟨aid, ben, .amount amt (pb cid aid) (mb.tagOf aid)⟩]) ∧
    (amt < s → ∃ chSeal,
      outputForAssignment M alloc sb method invoice.layer1 cid aid = .ok chSeal ∧
      (batch.main.transition.outputs.filter fun o => o.ty == aid) =
        [⟨aid, chSeal, .amount (s - amt) (pb cid aid) (mb.tagOf aid)⟩,
         ⟨aid, ben, .amount amt (pb cid aid) (mb.tagOf aid)⟩]) := by
  obtain ⟨⟨carried, hbo, hcar⟩, htags, -⟩ :=
    processInputs_ok_invariant M alloc pb sb method invoice.layer1 cid aid _ _ _ _ _ _ _ _ _
      hloop
  rw [hmb0, List.nil_append] at hbo
  have htag : b.tagOf aid = mb.tagOf aid := by
    simp [TransitionBuilder.tagOf, htags]
  rw [composeDeterministic_unfold M now invoice prevOutputs0 method bv alloc pb sb
    cid ifc mb an aid ben hexp hc hi hmb han hat hben, hloop, hamt] at hres
  simp only [mainTransitionStep] at hres
  rcases Nat.lt_trichotomy s amt with hlt | heq | hgt
  · rw [Nat.compare_eq_lt.mpr hlt] at hres
    cases hres
  · subst heq
    rw [Nat.compare_eq_eq.mpr rfl] at hres
    cases hbb : buildBlanks M alloc sb method invoice.layer1 ifc
        (spentStateFor M cid prevOutputs0.dedup) [] with
    | error e => rw [hbb] at hres; cases hres
    | ok blanks =>
      rw [hbb] at hres
      injection hres with hres
      subst hres
      refine ⟨le_refl _, fun _ => ?_, fun h => absurd h (lt_irrefl _)⟩
      rw [completeTransition_outputs, addFungibleStateRaw_outputs, htag, hbo]
      rw [List.filter_append, filter_ty_eq_nil carried aid hcar]
      simp
  · rw [Nat.compare_eq_gt.mpr hgt] at hres
    cases hout : outputForAssignment M alloc sb method invoice.layer1 cid aid with
    | error e => rw [hout] at hres; cases hres
    | ok chSeal =>
      rw [hout] at hres
      cases hbb : buildBlanks M alloc sb method invoice.layer1 ifc
          (spentStateFor M cid prevOutputs0.dedup) [] with
      | error e => rw [hbb] at hres; cases hres
      | ok blanks =>
        rw [hbb] at hres
        injection hres with hres
        subst hres
        refine ⟨le_of_lt hgt, fun h => absurd h (by omega), fun _ => ⟨chSeal, rfl, ?_⟩⟩
        rw [completeTransition_outputs, addFungibleStateRaw_outputs,
          addFungibleStateRaw_tagOf, addFungibleStateRaw_outputs, htag, hbo]
        rw [List.append_assoc, List.filter_append, filter_ty_eq_nil carried aid hcar]
        simp

/-! ## Claim C3: fungible conservation of the main transition -/

/-- C3: for every successfully composed main transition over a fungible
invoice, the sum of the fungible input amounts consumed equals the sum
of the fungible output amounts emitted (carried-forward state plus
change plus beneficiary). -/
theorem compose_fungible_conservation (M : InventoryModel) (now : Int)
    (invoice : RgbInvoice) (prevOutputs0 : List XOutputSeal) (method : Nat)
    (bv : Option Vout)
    (alloc : ContractId → AssignmentType → VelocityHint → Option Vout)
    (pb sb : ContractId → AssignmentType → Nat)
    (cid : ContractId) (ifc : IfaceName) (mb : TransitionBuilder)
    (an : FieldName) (aid : AssignmentType) (ben : BuilderSeal)
    (amt : Nat) (batch : Batch)
    (hexp : (invoice.expiry.map fun e => decide (e < now)).getD false = false)
    (hc : invoice.contract = some cid)
    (hi : invoice.iface = some ifc)
    (hmb : M.transitionBuilderRes cid ifc invoice.operation = some mb)
    (hmb0 : mb.outputs = []) (hmbi : mb.inputs = [])
    (han : invoice.assignment.orElse (fun _ => mb.defaultAssignment) = some an)
    (hat : mb.assignmentsType an = some aid)
    (hben : resolveBeneficiary invoice bv method sb cid aid = .ok ben)
    (hamt : invoice.owned_state = .amount amt)
    (hres : composeDeterministic M now invoice prevOutputs0 method bv alloc pb sb =
      .ok batch) :
    inputsFungibleSum batch.main.transition.inputs =
      outputsFungibleSum batch.main.transition.outputs := by
  rw [composeDeterministic_unfold M now invoice prevOutputs0 method bv alloc pb sb
    cid ifc mb an aid ben hexp hc hi hmb han hat hben, hamt] at hres
  cases hloop : processInputs M alloc pb sb method invoice.layer1 cid aid
      (M.stateForOutpoints cid prevOutputs0.dedup) (mb, [], 0, []) with
  | error e => rw [hloop] at hres; cases hres
  | ok acc =>
    obtain ⟨b, mi, s, d⟩ := acc
    rw [hloop] at hres
    obtain ⟨-, -, hsum⟩ :=
      processInputs_ok_invariant M alloc pb sb method invoice.layer1 cid aid _ _ _ _ _ _ _ _ _
        hloop
    rw [hmb0, hmbi] at hsum
    simp only [inputsFungibleSum, outputsFungibleSum, List.map_nil, List.sum_nil] at hsum
    simp only [mainTransitionStep] at hres
    rcases Nat.lt_trichotomy s amt with hlt | heq | hgt
    · rw [Nat.compare_eq_lt.mpr hlt] at hres
      cases hres
    · subst heq
      rw [Nat.compare_eq_eq.mpr rfl] at hres
      cases hbb : buildBlanks M alloc sb method invoice.layer1 ifc
          (spentStateFor M cid prevOutputs0.dedup) [] with
      | error e => rw [hbb] at hres; cases hres
      | ok blanks =>
        rw [hbb] at hres
        injection hres with hres
        subst hres
        simp only [completeTransition_outputs, completeTransition_inputs,
          addFungibleStateRaw_outputs, addFungibleStateRaw_inputs]
        rw [outputsFungibleSum_append]
        simp only [inputsFungibleSum, outputsFungibleSum, fungibleValue] at hsum ⊢
        omega
    · rw [Nat.compare_eq_gt.mpr hgt] at hres
      cases hout : outputForAssignment M alloc sb method invoice.layer1 cid aid with
      | error e => rw [hout] at hres; cases hres
      | ok chSeal =>
        rw [hout] at hres
        cases hbb : buildBlanks M alloc sb method invoice.layer1 ifc
            (spentStateFor M cid prevOutputs0.dedup) [] with
        | error e => rw [hbb] at hres; cases hres
        | ok blanks =>
          rw [hbb] at hres
          injection hres with hres
          subst hres
          simp only [completeTransition_outputs, completeTransition_inputs,
            addFungibleStateRaw_outputs, addFungibleStateRaw_inputs,
            addFungibleStateRaw_tagOf]
          rw [outputsFungibleSum_append, outputsFungibleSum_append]
          simp only [inputsFungibleSum, outputsFungibleSum, fungibleValue] at hsum ⊢
          omega

/-! ## Concrete fixtures for the composition witnesses

Contract 1 under interface 5; the target assignment field 4 maps to
assignment type 2 with asset tag 77; the two candidate previous outputs
10 and 11 carry fungible amounts 30 and 40 of the target type (the
fixture of spec scenarios A–C). -/

def mbW : TransitionBuilder := ⟨1, [(2, 77)], some 4, [(4, 2)], [], []⟩

def MW : InventoryModel :=
  ⟨fun _ _ _ => some mbW, fun _ _ => none, fun _ => none,
   fun cid outs =>
     if cid = 1 ∧ outs = [10, 11] then
       [((⟨100, 2, 0⟩, 10), .amount 30 5 77), ((⟨101, 2, 0⟩, 11), .amount 40 6 77)]
     else [],
   fun _ => [1]⟩

def allocW : ContractId → AssignmentType → VelocityHint → Option Vout :=
  fun _ _ _ => some 3

def pbW : ContractId → AssignmentType → Nat := fun _ _ => 9

def sbW : ContractId → AssignmentType → Nat := fun _ _ => 8

/-- The invoice of the fixture, parameterized by requested owned state. -/
def invoiceW (st : InvoiceState) : RgbInvoice :=
  ⟨none, some 1, some 5, none, none, .blindedSeal 55, 0, 0, st⟩

/-- The builder state after processing the two fixture inputs. -/
def bW : TransitionBuilder :=
  ⟨1, [(2, 77)], some 4, [(4, 2)],
   [(⟨100, 2, 0⟩, .amount 30 5 77), (⟨101, 2, 0⟩, .amount 40 6 77)], []⟩

/-! ## Claim C4: `InsufficientState` exactly on unfulfillable invoices -/

/-- C4: given that preconditions, resolution, and input processing
succeed, `compose_deterministic` returns `InsufficientState` (and hence
no batch) exactly when the invoice cannot be fulfilled: for a fungible
invoice, exactly when the accumulated matching-type sum is strictly
below the requested amount; for an RGB21 non-fungible invoice, exactly
when no collected data candidate equals the requested allocation. -/
theorem compose_insufficientState_iff (M : InventoryModel) (now : Int)
    (invoice : RgbInvoice) (prevOutputs0 : List XOutputSeal) (method : Nat)
    (bv : Option Vout)
    (alloc : ContractId → AssignmentType → VelocityHint → Option Vout)
    (pb sb : ContractId → AssignmentType → Nat)
    (cid : ContractId) (ifc : IfaceName) (mb : TransitionBuilder)
    (an : FieldName) (aid : AssignmentType) (ben : BuilderSeal)
    (b : TransitionBuilder) (mi : List XOutputSeal) (s : Nat) (d : List Nat)
    (hexp : (invoice.expiry.map fun e => decide (e < now)).getD false = false)
    (hc : invoice.contract = some cid)
    (hi : invoice.iface = some ifc)
    (hmb : M.transitionBuilderRes cid ifc invoice.operation = some mb)
    (han : invoice.assignment.orElse (fun _ => mb.defaultAssignment) = some an)
    (hat : mb.assignmentsType an = some aid)
    (hben : resolveBeneficiary invoice bv method sb cid aid = .ok ben)
    (hloop : processInputs M alloc pb sb method invoice.layer1 cid aid
      (M.stateForOutpoints cid prevOutputs0.dedup) (mb, [], 0, []) = .ok (b, mi, s, d)) :
    (∀ amt, invoice.owned_state = .amount amt →
      (composeDeterministic M now invoice prevOutputs0 method bv alloc pb sb =
        .err .insufficientState ↔ s < amt)) ∧
    (∀ a, invoice.owned_state = .data (.rgb21 a) →
      (composeDeterministic M now invoice prevOutputs0 method bv alloc pb sb =
        .err .insufficientState ↔ a ∉ d)) := by
  rw [composeDeterministic_unfold M now invoice prevOutputs0 method bv alloc pb sb
    cid ifc mb an aid ben hexp hc hi hmb han hat hben, hloop]
  have hblanks : ∀ r, (match buildBlanks M alloc sb method invoice.layer1 ifc
        (spentStateFor M cid prevOutputs0.dedup) [] with
      | .error e => POut.err e
      | .ok blanks => POut.ok (⟨⟨r, mi⟩, blanks⟩ : Batch)) ≠
        (POut.err .insufficientState : ComposeOut) := by
    intro r
    cases hbb : buildBlanks M alloc sb method invoice.layer1 ifc
        (spentStateFor M cid prevOutputs0.dedup) [] with
    | error e =>
      rcases buildBlanks_error_shape M alloc sb method invoice.layer1 ifc _ _ _ hbb with
        h | h | ⟨v, t, h⟩ <;> subst h <;> simp
    | ok blanks => simp
  constructor
  · intro amt hst
    rw [hst]
    simp only [mainTransitionStep]
    rcases Nat.lt_trichotomy s amt with hlt | heq | hgt
    · rw [Nat.compare_eq_lt.mpr hlt]
      simpa using hlt
    · subst heq
      rw [Nat.compare_eq_eq.mpr rfl]
      simpa using hblanks _
    · rw [Nat.compare_eq_gt.mpr hgt]
      cases hout : outputForAssignment M alloc sb method invoice.layer1 cid aid with
      | error e =>
        obtain ⟨v, hv⟩ := outputForAssignment_error_shape M alloc sb method
          invoice.layer1 cid aid e hout
        subst hv
        simp
        omega
      | ok sl =>
        simp only
        constructor
        · intro h
          exact absurd h (hblanks _)
        · intro h
          omega
  · intro a hst
    rw [hst]
    simp only [mainTransitionStep]
    by_cases hmem : a ∈ d
    · have : d.contains a = true := by simpa using hmem
      rw [this]
      simp only [if_true]
      constructor
      · intro h
        exact absurd h (hblanks _)
      · intro h
        exact absurd hmem h
    · have : d.contains a = false := by simpa using hmem
      rw [this]
      simp [hmem]

/-- The batch composed in the fixture for a request of 50 against
inputs 30 + 40 (spec scenario A): change 20 at the allocated vout 3,
beneficiary 50, two consumed outputs. -/
def batchA : Batch :=
  ⟨⟨⟨[(⟨100, 2, 0⟩, .amount 30 5 77), (⟨101, 2, 0⟩, .amount 40 6 77)],
     [⟨2, .revealed 0 ⟨0, 3, 8⟩, .amount 20 9 77⟩,
      ⟨2, .concealed 0 55, .amount 50 9 77⟩]⟩,
    [10, 11]⟩, []⟩

/-- Witness for C2 on the scenario-A fixture (request 50, inputs 30+40). -/
theorem compose_fungible_beneficiary_change_witness :
    50 ≤ 70 ∧
    (70 = 50 → (batchA.main.transition.outputs.filter fun o => o.ty == 2) =
      [⟨2, .concealed 0 55, .amount 50 (pbW 1 2) (mbW.tagOf 2)⟩]) ∧
    (50 < 70 → ∃ chSeal,
      outputForAssignment MW allocW sbW 0 (invoiceW (.amount 50)).layer1 1 2 = .ok chSeal ∧
      (batchA.main.transition.outputs.filter fun o => o.ty == 2) =
        [⟨2, chSeal, .amount (70 - 50) (pbW 1 2) (mbW.tagOf 2)⟩,
         ⟨2, .concealed 0 55, .amount 50 (pbW 1 2) (mbW.tagOf 2)⟩]) :=
  compose_fungible_beneficiary_change MW 0 (invoiceW (.amount 50)) [10, 11] 0 none
    allocW pbW sbW 1 5 mbW 4 2 (.concealed 0 55) bW [10, 11] 70 [] 50 batchA
    rfl rfl rfl rfl rfl rfl rfl rfl rfl (by rfl) (by rfl)

/-- Witness for C3 on the scenario-A fixture: 30 + 40 in, 20 + 50 out. -/
theorem compose_fungible_conservation_witness :
    inputsFungibleSum batchA.main.transition.inputs =
      outputsFungibleSum batchA.main.transition.outputs :=
  compose_fungible_conservation MW 0 (invoiceW (.amount 50)) [10, 11] 0 none
    allocW pbW sbW 1 5 mbW 4 2 (.concealed 0 55) 50 batchA
    rfl rfl rfl rfl rfl rfl rfl rfl rfl rfl (by rfl)

/-- Witness for C4 on the scenario-C fixture: request 100 against inputs
summing 70 yields `InsufficientState`. -/
theorem compose_insufficientState_iff_witness :
    composeDeterministic MW 0 (invoiceW (.amount 100)) [10, 11] 0 none allocW pbW sbW =
      .err .insufficientState :=
  ((compose_insufficientState_iff MW 0 (invoiceW (.amount 100)) [10, 11] 0 none
      allocW pbW sbW 1 5 mbW 4 2 (.concealed 0 55) bW [10, 11] 70 []
      rfl rfl rfl rfl rfl rfl rfl (by rfl)).1 100 rfl).mpr (by decide)

/-- Witness for C9: an unsupported (void) invoice state aborts. -/
theorem compose_todo_arm_panics_witness :
    composeDeterministic MW 0 (invoiceW .void) [10, 11] 0 none allocW pbW sbW = .panic :=
  compose_todo_arm_panics MW 0 (invoiceW .void) [10, 11] 0 none allocW pbW sbW
    1 5 mbW 4 2 (.concealed 0 55) bW [10, 11] 70 []
    rfl rfl rfl rfl rfl rfl rfl (by rfl) (Or.inl rfl)

/-! ## Claim C6: consignment confinement of `consign` -/

/-- C6: for every consign run whose collection and assembly lookups
succeed, exceeding the bundle ceiling fails with `TooManyBundles`,
exceeding the terminal ceiling (with bundles within bound, since the
bundle check comes first) fails with `TooManyTerminals`, and on success
the consignment holds exactly the collected bundles and terminals —
never a truncation. -/
theorem consign_confinement (S : StashModel) (fuel bc tc : Nat) (tf : Bool)
    (cid : ContractId) (outputs : List XOutputSeal) (secretSeals : List SecretSeal)
    (acc : CollectAcc) (g : GenesisInfo) (si : SchemaIfaces)
    (ifaces : List (Nat × Nat × Nat))
    (hcol : consignCollect S fuel cid outputs secretSeals = some (.ok acc))
    (hg : S.genesisAt cid = some g)
    (hs : S.schemaAt g.schemaId = some si)
    (hif : si.iimpls.mapM (fun p => (S.ifaceById p.1).map fun ifc => (p.1, ifc, p.2)) =
      some ifaces) :
    (bc < ((dedupByWitness (acc.bundledWitnesses.map (·.2)) []).map (·.2)).length →
      consign S fuel bc tc tf cid outputs secretSeals = some (.error .tooManyBundles)) ∧
    (((dedupByWitness (acc.bundledWitnesses.map (·.2)) []).map (·.2)).length ≤ bc →
      tc < acc.terminals.length →
      consign S fuel bc tc tf cid outputs secretSeals = some (.error .tooManyTerminals)) ∧
    (∀ c, consign S fuel bc tc tf cid outputs secretSeals = some (.ok c) →
      c.bundles = (dedupByWitness (acc.bundledWitnesses.map (·.2)) []).map (·.2) ∧
      c.terminals = acc.terminals) := by
  simp only [consign, hcol]
  simp only [consignAssemble, hg, hs, hif]
  refine ⟨?_, ?_, ?_⟩
  · intro h
    rw [if_pos h]
  · intro h1 h2
    rw [if_neg (by omega), if_pos h2]
  · intro c hc
    split at hc
    · cases Option.some.inj hc
    · split at hc
      · cases Option.some.inj hc
      · obtain h := Option.some.inj hc
        injection h with h
        subst h
        exact ⟨rfl, rfl⟩

/-! ## Shared concrete stash for the consign claims

Contract 1 has one public non-genesis opout (op 2, type 0, index 0);
operation 2's single assignment slot is concealed with secret seal 99;
the bundle 20 anchoring it sits in witness 30; genesis uses schema 7
with no interface implementations. -/

def S7 : StashModel :=
  ⟨fun _ => [⟨2, 0, 0⟩],
   fun _ _ => [], fun _ => [],
   fun op => if op = 2 then some ⟨2, [], [(0, [.confidential 99])]⟩ else none,
   fun op => if op = 2 then some 20 else none,
   fun bid => if bid = 20 then some ⟨30, [20], []⟩ else none,
   fun c => if c = 1 then some ⟨7⟩ else none,
   fun sid => if sid = 7 then some ⟨7, []⟩ else none,
   fun _ => none⟩

/-- The accumulator collected by `consignCollect` on `S7` when the
caller supplies secret seal 99. -/
def acc7 : CollectAcc :=
  ⟨[(20, ⟨30, [20], []⟩)], [(2, ⟨2, [], [(0, [.confidential 99])]⟩)], [(20, ⟨[99]⟩)]⟩

/-- Witness for C6: with a bundle ceiling of 0 the single collected
bundled witness overflows and `consign` fails with `TooManyBundles`. -/
theorem consign_confinement_witness :
    consign S7 5 0 5 true 1 [] [99] = some (.error .tooManyBundles) :=
  (consign_confinement S7 5 0 5 true 1 [] [99] acc7 ⟨7⟩ ⟨7, []⟩ []
    (by rfl) rfl rfl rfl).1 (by decide)

/-! ## Claim C7: `ConcealedPublicState` during the terminal scan -/

/-- An assignment entry whose type differs from the disclosed output's
never makes the index scan fail. -/
theorem scanIndices_ok_of_ty_ne (secretSeals : List SecretSeal) (opout : Opout)
    (bundleId : BundleId) (tyId : AssignmentType) (hty : opout.ty ≠ tyId) :
    ∀ (assigns : List Assign) (index : Nat) (terminals : List (BundleId × Terminal)),
    ∃ terminals', scanIndices secretSeals opout bundleId tyId assigns index terminals =
      .ok terminals' := by
  intro assigns
  induction assigns with
  | nil => exact fun index terminals => ⟨terminals, rfl⟩
  | cons a rest ih =>
    intro index terminals
    simp only [scanIndices]
    by_cases hsec : secretSeals.contains a.conceal
    · rw [if_pos hsec]
      exact ih (index + 1) _
    · rw [if_neg hsec, if_neg (fun h => hty h.2)]
      exact ih (index + 1) terminals

/-- When the disclosed output's own slot is concealed and its secret
seal is not among the caller seals, the index scan over the matching
assignment entry fails with `ConcealedPublicState`. -/
theorem scanIndices_concealed_error (secretSeals : List SecretSeal) (opout : Opout)
    (bundleId : BundleId) :
    ∀ (assigns : List Assign) (index : Nat) (terminals : List (BundleId × Terminal))
      (j : Nat) (a : Assign),
    assigns.get? j = some a → opout.no = index + j →
    a.revealedSeal = none → secretSeals.contains a.conceal = false →
    scanIndices secretSeals opout bundleId opout.ty assigns index terminals =
      .error (.concealedPublicState opout) := by
  intro assigns
  induction assigns with
  | nil => intro index terminals j a hj; cases hj
  | cons hd tl ih =>
    intro index terminals j a hj hno hrev hsec
    cases j with
    | zero =>
      have ha : hd = a := by simpa using hj
      subst ha
      simp only [scanIndices]
      rw [if_neg (by simpa using hsec),
        if_pos (show opout.no = index ∧ True from ⟨by omega, trivial⟩), hrev]
    | succ j' =>
      have hj' : tl.get? j' = some a := by simpa using hj
      simp only [scanIndices]
      by_cases hsec' : secretSeals.contains hd.conceal
      · rw [if_pos hsec']
        exact ih (index + 1) _ j' a hj' (by omega) hrev hsec
      · rw [if_neg hsec', if_neg (fun h => by omega)]
        exact ih (index + 1) terminals j' a hj' (by omega) hrev hsec

/-- Lifting of `scanIndices_concealed_error` to the whole typed
assignments map of a transition (keys distinct, as in a `BTreeMap`). -/
theorem scanTerminals_concealed_error (secretSeals : List SecretSeal) (opout : Opout)
    (bundleId : BundleId) :
    ∀ (entries : List (AssignmentType × List Assign))
      (terminals : List (BundleId × Terminal)) (assigns : List Assign)
      (j : Nat) (a : Assign),
    (entries.map Prod.fst).Nodup → (opout.ty, assigns) ∈ entries →
    assigns.get? j = some a → opout.no = j →
    a.revealedSeal = none → secretSeals.contains a.conceal = false →
    scanTerminals secretSeals opout bundleId entries terminals =
      .error (.concealedPublicState opout) := by
  intro entries
  induction entries with
  | nil => intro terminals assigns j a _ hmem; cases hmem
  | cons hd tl ih =>
    intro terminals assigns j a hkeys hmem hj hno hrev hsec
    obtain ⟨ty', as'⟩ := hd
    rcases List.mem_cons.mp hmem with heq | hmem'
    · simp only [scanTerminals]
      rw [show ty' = opout.ty from (Prod.mk.inj heq).1.symm,
        show as' = assigns from (Prod.mk.inj heq).2.symm]
      rw [scanIndices_concealed_error secretSeals opout bundleId assigns 0 terminals j a
        hj (by omega) hrev hsec]
    · have hty : ty' ≠ opout.ty := by
        intro h
        apply (List.nodup_cons.mp hkeys).1
        rw [h]
        exact List.mem_map.mpr ⟨(opout.ty, assigns), hmem', rfl⟩
      obtain ⟨t', ht'⟩ := scanIndices_ok_of_ty_ne secretSeals opout bundleId ty'
        (fun h => hty h.symm) as' 0 terminals
      simp only [scanTerminals]
      rw [ht']
      exact ih t' assigns j a (List.nodup_cons.mp hkeys).2 hmem' hj hno hrev hsec

/-- Splitting the phase-1 collection at a list boundary. -/
theorem collectPhase1_append (S : StashModel) (cid : ContractId)
    (ss : List SecretSeal) :
    ∀ (pre rest : List Opout) (init : CollectAcc),
    collectPhase1 S cid ss (pre ++ rest) init =
      match collectPhase1 S cid ss pre init with
      | .error e => .error e
      | .ok acc => collectPhase1 S cid ss rest acc := by
  intro pre
  induction pre with
  | nil => intro rest init; rfl
  | cons opout tl ih =>
    intro rest init
    simp only [List.cons_append, collectPhase1]
    by_cases hgen : opout.op = cid
    · rw [if_pos hgen, if_pos hgen]
      exact ih rest init
    · rw [if_neg hgen, if_neg hgen]
      cases htr : S.transitionAt opout.op with
      | none => simp only [htr]
      | some t =>
        simp only [htr]
        cases hbid : S.opBundleId t.id with
        | none => simp only [hbid]
        | some bundleId =>
          simp only [hbid]
          cases hscan : scanTerminals ss opout bundleId t.assignments init.terminals with
          | error e => simp only [hscan]
          | ok terminals =>
            simp only [hscan]
            cases hlook : init.bundledWitnesses.lookup bundleId with
            | some bw =>
              simp only [hlook]
              exact ih rest _
            | none =>
              simp only [hlook]
              cases hbw : S.bundledWitnessAt bundleId with
              | none => simp only [hbw]
              | some bw =>
                simp only [hbw]
                exact ih rest _

/-- C7 (amended): during `consign`, for a collected non-genesis output
whose (type, index) matches the disclosed output itself, if the
assignment slot's seal cannot be revealed AND its concealed seal is not
among the caller-provided secret seals, then `consign` fails with
`ConcealedPublicState` for that opout (given that the opouts collected
before it were processed without error).  When the concealed seal IS
among the caller secret seals, the secret-seal branch takes precedence
and no failure occurs. -/
theorem consign_concealed_public_state (S : StashModel) (fuel bc tc : Nat) (tf : Bool)
    (cid : ContractId) (outputs : List XOutputSeal) (secretSeals : List SecretSeal)
    (pre post : List Opout) (opout : Opout) (acc : CollectAcc)
    (t : ConsTransition) (bundleId : BundleId) (assigns : List Assign) (a : Assign)
    (hops : opoutSet (S.publicOpouts cid ++ S.opoutsByOutputs cid outputs ++
      S.opoutsByTerminals secretSeals) = pre ++ opout :: post)
    (hpre : collectPhase1 S cid secretSeals pre ⟨[], [], []⟩ = .ok acc)
    (hgen : opout.op ≠ cid)
    (htr : S.transitionAt opout.op = some t)
    (hbid : S.opBundleId t.id = some bundleId)
    (hkeys : (t.assignments.map Prod.fst).Nodup)
    (hmem : (opout.ty, assigns) ∈ t.assignments)
    (hj : assigns.get? opout.no = some a)
    (hrev : a.revealedSeal = none)
    (hsec : secretSeals.contains a.conceal = false) :
    consign S fuel bc tc tf cid outputs secretSeals =
      some (.error (.concealedPublicState opout)) := by
  have hstep : collectPhase1 S cid secretSeals (pre ++ opout :: post) ⟨[], [], []⟩ =
      .error (.concealedPublicState opout) := by
    rw [collectPhase1_append S cid secretSeals pre (opout :: post) ⟨[], [], []⟩, hpre]
    simp only [collectPhase1]
    rw [if_neg hgen]
    simp only [htr, hbid,
      scanTerminals_concealed_error secretSeals opout bundleId t.assignments
        acc.terminals assigns opout.no a hkeys hmem hj rfl hrev hsec]
  simp only [consign, consignCollect, hops, hstep]

/-- Counterexample to C7 as stated: on `S7` with caller secret seal 99,
the disclosed output's own slot is concealed and cannot be revealed,
yet `consign` succeeds — the secret-seal branch records the terminal
first, so no `ConcealedPublicState` failure occurs and the concealed
seal is exported. -/
theorem consign_concealed_public_state_cex :
    consign S7 5 5 5 true 1 [] [99] =
      some (.ok ⟨7, 1, [], [⟨30, [20], []⟩], [(20, ⟨[99]⟩)], true⟩) := by rfl

/-- Witness for C7's amended theorem: on `S7` with no caller secret
seals the same concealed slot makes `consign` fail with
`ConcealedPublicState` for opout (2, 0, 0). -/
theorem consign_concealed_public_state_witness :
    consign S7 5 5 5 true 1 [] [] =
      some (.error (.concealedPublicState ⟨2, 0, 0⟩)) :=
  consign_concealed_public_state S7 5 5 5 true 1 [] [] [] [] ⟨2, 0, 0⟩ ⟨[], [], []⟩
    ⟨2, [], [(0, [.confidential 99])]⟩ 20 [.confidential 99] (.confidential 99)
    (by rfl) rfl (by decide) rfl rfl (by decide) (by decide) rfl rfl rfl

end RgbStd
